import Mathlib

/-
  Verification of the attendance counting and reconciliation core of the
  BunkStop repository (React + Supabase attendance tracker).

  The embedding models the storage tables and the mutating handlers found in
  the source pages:
  - Dashboard (no-RPC variant): handleConfirmMark inserts an attendance log
    row and then writes an absolute count computed from the client cache.
  - Dashboard (RPC variant): calls increment_attendance_total and applies an
    optimistic local patch to the rows state.
  - Profile: saveEditTotal, handleAddSubject (upsert), handleDeleteAttendance
    (calls the delete_log_and_decrement stored procedure).

  JavaScript number arithmetic is modelled exactly over the rationals; DB
  integer columns are modelled as Int.
-/

namespace BunkStop

/-- A row of the attendance table: one row per attendance event
    (id, student_id, subject, note).  The date column plays no role in any
    claim and is omitted. -/
structure LogRow where
  id : Nat
  studentId : String
  subject : String
  note : Option String
deriving DecidableEq

/-- A row of the attendance_totals table: one row per student and subject,
    with the denormalized count of attended lectures and the target total. -/
structure TotalsRow where
  studentId : String
  subject : String
  count : Int
  total : Int
deriving DecidableEq

/-- The storage state seen by the handlers: the attendance log table, the
    attendance_totals table, and the generator for fresh log row ids. -/
structure DB where
  logs : List LogRow
  totals : List TotalsRow
  nextId : Nat
deriving DecidableEq

/-- Row filter used by every totals query in the source:
    .eq(student_id, uid).eq(subject, subj). -/
def keyMatch (sid subj : String) (t : TotalsRow) : Bool :=
  t.studentId == sid && t.subject == subj

/-- Row filter for attendance log rows of one (student, subject) pair. -/
def logMatch (sid subj : String) (l : LogRow) : Bool :=
  l.studentId == sid && l.subject == subj

/-- Lookup of the attendance_totals row of a (student, subject) pair, as done
    by rowsBySubject after fetchTotals. -/
def findTotals (db : DB) (sid subj : String) : Option TotalsRow :=
  db.totals.find? (keyMatch sid subj)

/-- The number of attendance log rows currently stored for a
    (student, subject) pair. -/
def countLogs (db : DB) (sid subj : String) : Nat :=
  db.logs.countP (logMatch sid subj)

/-- Step 1 of handleConfirmMark (Dashboard, no-RPC variant):
    supabase.from(attendance).insert(\x7b student_id, subject, note \x7d). -/
def insertLog (db : DB) (sid subj : String) (note : Option String) : DB :=
  { db with
      logs := db.logs ++ [{ id := db.nextId, studentId := sid, subject := subj, note := note }]
      nextId := db.nextId + 1 }

/-- Step 2 of handleConfirmMark (Dashboard, no-RPC variant):
    supabase.from(attendance_totals).update(\x7b count: newCount \x7d)
    .eq(student_id, uid).eq(subject, subject) — an absolute write of a
    client-computed value. -/
def updateCount (db : DB) (sid subj : String) (newCount : Int) : DB :=
  { db with
      totals := db.totals.map fun t =>
        if keyMatch sid subj t then { t with count := newCount } else t }

/-- Failure modes of marking attendance, as surfaced by the handlers. -/
inductive MarkError where
  | notConfigured
  | capacityReached
  | storageError
deriving DecidableEq

/-- handleConfirmMark of the no-RPC Dashboard variant, executed sequentially
    against the storage state (the cached totals row equals the stored one).
    The Boolean incrementFails injects a storage failure of step 2: in the
    source the catch block only shows a toast, so the log row inserted in
    step 1 is retained.  The returned DB is the storage state after the run,
    whether or not the run succeeded. -/
def handleConfirmMarkWith (incrementFails : Bool) (db : DB) (sid subj : String)
    (note : Option String) : Except MarkError Unit × DB :=
  match findTotals db sid subj with
  | none => (Except.error MarkError.notConfigured, db)
  | some r =>
    if 0 < r.total ∧ r.total ≤ r.count then
      (Except.error MarkError.capacityReached, db)
    else
      let db1 := insertLog db sid subj note
      if incrementFails then (Except.error MarkError.storageError, db1)
      else (Except.ok (), updateCount db1 sid subj (r.count + 1))

/-- handleConfirmMark with both storage round trips succeeding. -/
def handleConfirmMark (db : DB) (sid subj : String) (note : Option String) :
    Except MarkError Unit × DB :=
  handleConfirmMarkWith false db sid subj note

/-- Failure mode of deleting an attendance record. -/
inductive DeleteError where
  | notFound
deriving DecidableEq

/-- Modelled from the spec: the delete_log_and_decrement stored procedure
    called by handleDeleteAttendance in Profile.tsx is not part of the
    repository source.  Per spec section 4.1 it fails with NotFound when the
    log row does not exist or does not belong to the caller, and on success
    removes the log row and decrements the matching SubjectTotal count by 1,
    floored at 0. -/
def delete_log_and_decrement (db : DB) (sid : String) (logId : Nat) :
    Except DeleteError Unit × DB :=
  match db.logs.find? (fun l => l.id == logId && l.studentId == sid) with
  | none => (Except.error DeleteError.notFound, db)
  | some l =>
    (Except.ok (),
      { db with
          logs := db.logs.filter fun x => !(x.id == logId)
          totals := db.totals.map fun t =>
            if keyMatch l.studentId l.subject t then
              { t with count := max (t.count - 1) 0 }
            else t })

/-- The two ledger operations of the claims, as a step alphabet. -/
inductive Op where
  | record (sid subj : String) (note : Option String)
  | delete (sid : String) (logId : Nat)

/-- One operation applied to the storage state (the state after the run,
    successful or not). -/
def applyOp (db : DB) : Op → DB
  | Op.record sid subj note => (handleConfirmMark db sid subj note).2
  | Op.delete sid logId => (delete_log_and_decrement db sid logId).2

/-- A sequence of operations applied to the storage state. -/
def applyOps (db : DB) (ops : List Op) : DB :=
  ops.foldl applyOp db

/-- Every stored log row id is below the id generator (fresh ids are fresh). -/
def IdsBounded (db : DB) : Prop :=
  ∀ l ∈ db.logs, l.id < db.nextId

/-- Log row ids are pairwise distinct (the primary key of the log table). -/
def IdsNodup (db : DB) : Prop :=
  db.logs.Pairwise fun a b => a.id ≠ b.id

/-- The core invariant: every attendance_totals row carries exactly the
    number of attendance log rows of its (student, subject) pair. -/
def Consistent (db : DB) : Prop :=
  ∀ t ∈ db.totals, t.count = (countLogs db t.studentId t.subject : Int)

/-- A consistent storage state: primary-key integrity of the log table plus
    the count invariant. -/
def WF (db : DB) : Prop :=
  IdsBounded db ∧ IdsNodup db ∧ Consistent db

/-- The result of the JavaScript expression Number(x): a finite value
    (modelled exactly as a rational), NaN, or an infinity. -/
inductive JSNumber where
  | finite (q : ℚ)
  | nan
  | posInf
  | negInf
deriving DecidableEq

/-- Number.isFinite, as used by the input validation of the handlers. -/
def JSNumber.isFiniteNum : JSNumber → Bool
  | JSNumber.finite _ => true
  | _ => false

/-- Failure mode of saveEditTotal. -/
inductive EditError where
  | invalidValue
deriving DecidableEq

/-- saveEditTotal (identical in Dashboard.tsx and Profile.tsx):
    parsed = Number(editingTotalValue); reject when not finite or below 0;
    otherwise update(\x7b total: Math.floor(parsed) \x7d) on the matching
    attendance_totals row.  Nothing else is written. -/
def saveEditTotal (db : DB) (sid subj : String) (v : JSNumber) :
    Except EditError Unit × DB :=
  match v with
  | JSNumber.finite q =>
    if q < 0 then (Except.error EditError.invalidValue, db)
    else
      (Except.ok (),
        { db with
            totals := db.totals.map fun t =>
              if keyMatch sid subj t then { t with total := ⌊q⌋ } else t })
  | _ => (Except.error EditError.invalidValue, db)

/-- Failure modes of handleAddSubject. -/
inductive AddError where
  | noSubjectSelected
  | invalidTotal
deriving DecidableEq

/-- The storage-layer upsert used by handleAddSubject: when a row with the
    key exists the provided columns (total) are overwritten, otherwise a new
    row is inserted whose count column takes its default value 0. -/
def upsertTotal (db : DB) (sid subj : String) (total : Int) : DB :=
  if (findTotals db sid subj).isSome then
    { db with
        totals := db.totals.map fun t =>
          if keyMatch sid subj t then { t with total := total } else t }
  else
    { db with
        totals := db.totals ++
          [{ studentId := sid, subject := subj, count := 0, total := total }] }

/-- handleAddSubject (Profile.tsx): reject an empty subject selection,
    reject a total that is not finite or below 0, then
    supabase.from(attendance_totals).upsert(\x7b student_id, subject,
    total: Math.floor(totalNum) \x7d). -/
def handleAddSubject (db : DB) (sid subj : String) (totalNum : JSNumber) :
    Except AddError Unit × DB :=
  if subj == "" then (Except.error AddError.noSubjectSelected, db)
  else
    match totalNum with
    | JSNumber.finite q =>
      if q < 0 then (Except.error AddError.invalidTotal, db)
      else (Except.ok (), upsertTotal db sid subj ⌊q⌋)
    | _ => (Except.error AddError.invalidTotal, db)

/-- Math.round for the values arising here: round half toward positive
    infinity, i.e. the floor of x + 1/2. -/
def jsRound (q : ℚ) : Int :=
  ⌊q + 1 / 2⌋

/-- Dashboard render: capped = total > 0 ? Math.min(count, total) : count. -/
def capped (count total : Int) : Int :=
  if 0 < total then min count total else count

/-- Dashboard render: pct = total > 0 ? Math.round((capped / total) * 100) : 0.
    JavaScript number arithmetic is modelled exactly over the rationals. -/
def dashboardPct (count total : Int) : Int :=
  if 0 < total then jsRound ((capped count total : ℚ) / (total : ℚ) * 100) else 0

/-- The percentage the Dashboard actually displays: the pct element is
    rendered only inside a total > 0 guard, so no percentage is shown for an
    uncapped subject. -/
def dashboardShownPct (count total : Int) : Option Int :=
  if 0 < total then some (dashboardPct count total) else none

/-- Profile render: pct = total > 0
    ? Math.round(Math.min(count, total) / total * 100) : null. -/
def profilePct (count total : Int) : Option Int :=
  if 0 < total then some (jsRound ((min count total : Int) / (total : ℚ) * 100))
  else none

/-- The display projection in the words of the spec:
    capped = min(count, total) if total > 0 else count. -/
def specCapped (count total : Int) : Int :=
  if 0 < total then min count total else count

/-- The display projection in the words of the spec:
    percent = round(100 * capped / total) if total > 0 else null. -/
def specPercent (count total : Int) : Option Int :=
  if 0 < total then some (jsRound (100 * (specCapped count total : ℚ) / (total : ℚ)))
  else none

/-- The optimistic local patch of the Dashboard RPC variant after a
    successful increment_attendance_total call:
    rows.map(row => row.subject === selectedSubject
      ? \x7b ...row, count: Math.min(row.count + 1, row.total) \x7d : row). -/
def optimisticPatch (rows : List TotalsRow) (subj : String) : List TotalsRow :=
  rows.map fun row =>
    if row.subject == subj then { row with count := min (row.count + 1) row.total }
    else row

deriving instance DecidableEq for Except

instance (db : DB) : Decidable (IdsBounded db) :=
  inferInstanceAs (Decidable (∀ l ∈ db.logs, l.id < db.nextId))

instance (db : DB) : Decidable (IdsNodup db) :=
  inferInstanceAs (Decidable (db.logs.Pairwise fun a b : LogRow => a.id ≠ b.id))

instance (db : DB) : Decidable (Consistent db) :=
  inferInstanceAs (Decidable (∀ t ∈ db.totals,
    t.count = (countLogs db t.studentId t.subject : Int)))

/-! Helper lemmas for the reconciliation invariant. -/

theorem countLogs_insertLog (db : DB) (sid subj a b : String) (note : Option String) :
    countLogs (insertLog db sid subj note) a b =
      countLogs db a b + (if sid = a ∧ subj = b then 1 else 0) := by
  simp only [countLogs, insertLog, List.countP_append, List.countP_cons, List.countP_nil,
    logMatch, Nat.zero_add]
  by_cases h1 : sid = a <;> by_cases h2 : subj = b <;>
    simp [h1, h2]

theorem findTotals_spec (db : DB) (sid subj : String) (r : TotalsRow)
    (h : findTotals db sid subj = some r) :
    r ∈ db.totals ∧ r.studentId = sid ∧ r.subject = subj := by
  have hm := List.mem_of_find?_eq_some h
  have hp := List.find?_some h
  simp only [keyMatch, Bool.and_eq_true, beq_iff_eq] at hp
  exact ⟨hm, hp.1, hp.2⟩

theorem countP_filter_id_ne (p : LogRow → Bool) (logs : List LogRow) (l : LogRow)
    (hmem : l ∈ logs) (hnd : logs.Pairwise fun a b => a.id ≠ b.id) :
    (logs.filter fun x => !(x.id == l.id)).countP p + (if p l then 1 else 0) =
      logs.countP p := by
  induction logs with
  | nil => cases hmem
  | cons a t ih =>
    rw [List.pairwise_cons] at hnd
    obtain ⟨ha, hnd2⟩ := hnd
    rcases List.mem_cons.mp hmem with rfl | hmem2
    · have h2 : (t.filter fun x => !(x.id == l.id)) = t := by
        apply List.filter_eq_self.mpr
        intro x hx
        simp [beq_eq_false_iff_ne, Ne.symm (ha x hx)]
      simp [List.filter_cons, h2, List.countP_cons]
    · have hne : (!(a.id == l.id)) = true := by
        simp [beq_eq_false_iff_ne, ha l hmem2]
      rw [List.filter_cons, if_pos hne, List.countP_cons, List.countP_cons]
      have := ih hmem2 hnd2
      omega

/-- The no-RPC mark keeps the invariant when run sequentially: inserting the
    log row and writing back the cached count plus one. -/
theorem WF_updateCount_insertLog (db : DB) (sid subj : String) (note : Option String)
    (r : TotalsRow) (hfind : findTotals db sid subj = some r) (h : WF db) :
    WF (updateCount (insertLog db sid subj note) sid subj (r.count + 1)) := by
  obtain ⟨hb, hn, hc⟩ := h
  obtain ⟨hrmem, hrsid, hrsubj⟩ := findTotals_spec db sid subj r hfind
  refine ⟨?_, ?_, ?_⟩
  · intro x hx
    simp only [updateCount, insertLog, List.mem_append, List.mem_singleton] at hx
    rcases hx with hx | rfl
    · exact Nat.lt_succ_of_lt (hb x hx)
    · exact Nat.lt_succ_self _
  · simp only [IdsNodup, updateCount, insertLog]
    rw [List.pairwise_append]
    refine ⟨hn, List.pairwise_singleton _ _, ?_⟩
    intro x hx y hy
    rcases List.mem_singleton.mp hy with rfl
    exact Nat.ne_of_lt (hb x hx)
  · intro t2 ht2
    have hlogs : ∀ a b, countLogs (updateCount (insertLog db sid subj note) sid subj (r.count + 1)) a b
        = countLogs db a b + (if sid = a ∧ subj = b then 1 else 0) := by
      intro a b
      exact countLogs_insertLog db sid subj a b note
    simp only [updateCount, insertLog, List.mem_map] at ht2
    obtain ⟨t, htmem, rfl⟩ := ht2
    by_cases hk : keyMatch sid subj t = true
    · have hts : t.studentId = sid ∧ t.subject = subj := by
        simpa [keyMatch, Bool.and_eq_true, beq_iff_eq] using hk
      rw [if_pos hk]
      show r.count + 1 = (countLogs _ t.studentId t.subject : Int)
      rw [hlogs, if_pos ⟨hts.1.symm, hts.2.symm⟩]
      have hr : r.count = (countLogs db sid subj : Int) := by
        have := hc r hrmem
        rwa [hrsid, hrsubj] at this
      rw [hts.1, hts.2, hr]
      push_cast
      ring
    · have hts : ¬(t.studentId = sid ∧ t.subject = subj) := by
        intro hcontra
        exact hk (by simp [keyMatch, Bool.and_eq_true, beq_iff_eq, hcontra.1, hcontra.2])
      rw [if_neg hk]
      show t.count = (countLogs _ t.studentId t.subject : Int)
      rw [hlogs, if_neg fun hcontra => hts ⟨hcontra.1.symm, hcontra.2.symm⟩]
      simpa using hc t htmem

/-- handleConfirmMark preserves the consistent-state predicate when both
    storage steps succeed (the sequential execution of the no-RPC variant). -/
theorem WF_handleConfirmMark (db : DB) (sid subj : String) (note : Option String)
    (h : WF db) : WF (handleConfirmMark db sid subj note).2 := by
  cases hfind : findTotals db sid subj with
  | none =>
    simp only [handleConfirmMark, handleConfirmMarkWith, hfind]
    exact h
  | some r =>
    by_cases hcap : 0 < r.total ∧ r.total ≤ r.count
    · simp only [handleConfirmMark, handleConfirmMarkWith, hfind, if_pos hcap]
      exact h
    · simp only [handleConfirmMark, handleConfirmMarkWith, hfind, if_neg hcap,
        Bool.false_eq_true, if_false]
      exact WF_updateCount_insertLog db sid subj note r hfind h

/-- The spec-modelled delete-and-decrement procedure preserves the
    consistent-state predicate. -/
theorem WF_delete (db : DB) (sid : String) (logId : Nat) (h : WF db) :
    WF (delete_log_and_decrement db sid logId).2 := by
  obtain ⟨hb, hn, hc⟩ := h
  cases hfind : db.logs.find? (fun x => x.id == logId && x.studentId == sid) with
  | none =>
    simp only [delete_log_and_decrement, hfind]
    exact ⟨hb, hn, hc⟩
  | some l =>
    simp only [delete_log_and_decrement, hfind]
    have hlmem : l ∈ db.logs := List.mem_of_find?_eq_some hfind
    have hlp := List.find?_some hfind
    have hlid : l.id = logId := by
      simp only [Bool.and_eq_true, beq_iff_eq] at hlp
      exact hlp.1
    have hcount : ∀ p : LogRow → Bool,
        (db.logs.filter fun x => !(x.id == logId)).countP p + (if p l then 1 else 0)
          = db.logs.countP p := by
      intro p
      have := countP_filter_id_ne p db.logs l hlmem hn
      rwa [hlid] at this
    refine ⟨?_, ?_, ?_⟩
    · intro x hx
      simp only [List.mem_filter] at hx
      exact hb x hx.1
    · exact hn.sublist (List.filter_sublist _)
    · intro t2 ht2
      simp only [List.mem_map] at ht2
      obtain ⟨t, htmem, rfl⟩ := ht2
      by_cases hk : keyMatch l.studentId l.subject t = true
      · have hts : t.studentId = l.studentId ∧ t.subject = l.subject := by
          simpa [keyMatch, Bool.and_eq_true, beq_iff_eq] using hk
        rw [if_pos hk]
        show max (t.count - 1) 0 = (countLogs _ t.studentId t.subject : Int)
        have hpl : logMatch t.studentId t.subject l = true := by
          simp [logMatch, Bool.and_eq_true, beq_iff_eq, hts.1.symm, hts.2.symm]
        have h1 := hcount (logMatch t.studentId t.subject)
        rw [if_pos hpl] at h1
        have h2 : t.count = (db.logs.countP (logMatch t.studentId t.subject) : Int) :=
          hc t htmem
        show max (t.count - 1) 0 = ((db.logs.filter fun x => !(x.id == logId)).countP
          (logMatch t.studentId t.subject) : Int)
        omega
      · have hts : ¬(t.studentId = l.studentId ∧ t.subject = l.subject) := by
          intro hcontra
          exact hk (by simp [keyMatch, Bool.and_eq_true, beq_iff_eq, hcontra.1, hcontra.2])
        rw [if_neg hk]
        show t.count = (countLogs _ t.studentId t.subject : Int)
        have hts2 : ¬(l.studentId = t.studentId ∧ l.subject = t.subject) :=
          fun hcontra => hts ⟨hcontra.1.symm, hcontra.2.symm⟩
        have hpl : logMatch t.studentId t.subject l = false := by
          rcases not_and_or.mp hts2 with hx | hx <;>
            simp [logMatch, beq_eq_false_iff_ne, hx]
        have h1 := hcount (logMatch t.studentId t.subject)
        rw [hpl] at h1
        simp only [if_neg Bool.false_ne_true, Nat.add_zero] at h1
        have h2 : t.count = (db.logs.countP (logMatch t.studentId t.subject) : Int) :=
          hc t htmem
        show t.count = ((db.logs.filter fun x => !(x.id == logId)).countP
          (logMatch t.studentId t.subject) : Int)
        omega

/-- Each single ledger operation preserves the consistent-state predicate. -/
theorem WF_applyOp (db : DB) (op : Op) (h : WF db) : WF (applyOp db op) := by
  cases op with
  | record sid subj note => exact WF_handleConfirmMark db sid subj note h
  | delete sid logId => exact WF_delete db sid logId h

/-! Concrete states used by witnesses and counterexamples. -/

/-- A fresh subject: no log rows, count 0, total 10. -/
def dbFresh : DB :=
  { logs := []
    totals := [{ studentId := "s", subject := "CN", count := 0, total := 10 }]
    nextId := 0 }

/-- A subject at capacity: count 5 of total 5. -/
def dbAtCap : DB :=
  { logs := []
    totals := [{ studentId := "s", subject := "CN", count := 5, total := 5 }]
    nextId := 0 }

/-- A configured subject with count 5 of total 10 and no log rows recorded
    in the model. -/
def dbFive : DB :=
  { logs := []
    totals := [{ studentId := "s", subject := "CN", count := 5, total := 10 }]
    nextId := 7 }

/-- An out-of-sync state: one log row but count already 0 (the defensive
    flooring scenario of the spec). -/
def dbZeroCount : DB :=
  { logs := [{ id := 0, studentId := "s", subject := "CN", note := none }]
    totals := [{ studentId := "s", subject := "CN", count := 0, total := 10 }]
    nextId := 1 }

/-! The claims. -/

/-- C1: for every (studentId, subject) pair, after any sequence of
    recordAttendance and deleteAttendance operations starting from a
    consistent state, the SubjectTotal count equals the number of
    AttendanceLog rows existing for that pair. -/
theorem count_matches_log_rows (db : DB) (ops : List Op) (h : WF db) :
    Consistent (applyOps db ops) := by
  suffices hwf : WF (applyOps db ops) from hwf.2.2
  induction ops generalizing db with
  | nil => exact h
  | cons op rest ih => exact ih (applyOp db op) (WF_applyOp db op h)

theorem count_matches_log_rows_witness :
    Consistent (applyOps dbFresh
      [Op.record "s" "CN" none, Op.record "s" "CN" none, Op.delete "s" 0]) :=
  count_matches_log_rows dbFresh
    [Op.record "s" "CN" none, Op.record "s" "CN" none, Op.delete "s" 0]
    (by refine ⟨?_, ?_, ?_⟩ <;> decide)

/-- C2 is false of the no-RPC handleConfirmMark: the handler issues two
    independent round trips, and when the count update of step 2 fails after
    the insert of step 1, the catch block only shows a toast, so the inserted
    log row is retained while the count stays un-incremented — a partial
    state the claim rules out. -/
theorem two_step_mark_retains_log_on_failure :
    (handleConfirmMarkWith true dbFresh "s" "CN" none).1 =
      Except.error MarkError.storageError ∧
    (handleConfirmMarkWith true dbFresh "s" "CN" none).2.logs =
      [{ id := 0, studentId := "s", subject := "CN", note := none }] ∧
    findTotals (handleConfirmMarkWith true dbFresh "s" "CN" none).2 "s" "CN" =
      some { studentId := "s", subject := "CN", count := 0, total := 10 } := by
  decide

/-- C3 is false of the no-RPC handleConfirmMark: the count write is an
    absolute client-computed value, so two interleaved marks that both read
    count 0 end with count 1 although two log rows exist — a lost update.
    The first conjunct checks that one mark really consists of the insertLog
    and updateCount steps interleaved here. -/
theorem concurrent_marks_lose_update :
    (handleConfirmMark dbFresh "s" "CN" none).2 =
      updateCount (insertLog dbFresh "s" "CN" none) "s" "CN" (0 + 1) ∧
    countLogs (updateCount (insertLog
        (updateCount (insertLog dbFresh "s" "CN" none) "s" "CN" (0 + 1))
        "s" "CN" none) "s" "CN" (0 + 1)) "s" "CN" = 2 ∧
    findTotals (updateCount (insertLog
        (updateCount (insertLog dbFresh "s" "CN" none) "s" "CN" (0 + 1))
        "s" "CN" none) "s" "CN" (0 + 1)) "s" "CN" =
      some { studentId := "s", subject := "CN", count := 1, total := 10 } := by
  decide

/-- C4: when the totals row of the pair has 0 < total and count at total,
    marking fails with the capacity error and the state is returned
    unchanged, for either value of the step-2 failure flag. -/
theorem capacity_reached_blocks_mark (b : Bool) (db : DB) (sid subj : String)
    (note : Option String) (r : TotalsRow)
    (hr : findTotals db sid subj = some r) (ht : 0 < r.total)
    (hc : r.total ≤ r.count) :
    handleConfirmMarkWith b db sid subj note =
      (Except.error MarkError.capacityReached, db) := by
  simp only [handleConfirmMarkWith, hr, if_pos (And.intro ht hc)]

theorem capacity_reached_blocks_mark_witness :
    handleConfirmMarkWith false dbAtCap "s" "CN" none =
      (Except.error MarkError.capacityReached, dbAtCap) :=
  capacity_reached_blocks_mark false dbAtCap "s" "CN" none
    { studentId := "s", subject := "CN", count := 5, total := 5 }
    (by decide) (by decide) (by decide)

/-- C5 is false of handleAddSubject: the handler issues an upsert, so adding
    a subject whose totals row already exists succeeds and overwrites the
    stored total instead of failing with AlreadyExists and leaving the state
    unchanged. -/
theorem add_subject_existing_pair_succeeds :
    (handleAddSubject dbFive "s" "CN" (JSNumber.finite 20)).1 = Except.ok () ∧
    (handleAddSubject dbFive "s" "CN" (JSNumber.finite 20)).2.totals =
      [{ studentId := "s", subject := "CN", count := 5, total := 20 }] := by
  decide

/-- C5 amended: handleAddSubject with a nonempty subject and a finite
    non-negative total always succeeds; on an existing pair it overwrites the
    total column of the matching row (count and logs unchanged), and on a new
    pair it inserts a row with count 0 and total the floor of the input. -/
theorem add_subject_upserts (db : DB) (sid subj : String) (q : ℚ)
    (hs : ¬subj = "") (hq : ¬q < 0) :
    (handleAddSubject db sid subj (JSNumber.finite q)).1 = Except.ok () ∧
    (handleAddSubject db sid subj (JSNumber.finite q)).2.logs = db.logs ∧
    ((findTotals db sid subj).isSome = true →
      (handleAddSubject db sid subj (JSNumber.finite q)).2.totals =
        db.totals.map fun t =>
          if keyMatch sid subj t then { t with total := ⌊q⌋ } else t) ∧
    ((findTotals db sid subj).isSome = false →
      (handleAddSubject db sid subj (JSNumber.finite q)).2.totals =
        db.totals ++
          [{ studentId := sid, subject := subj, count := 0, total := ⌊q⌋ }]) := by
  have hs2 : (subj == "") = false := beq_eq_false_iff_ne.mpr hs
  cases hsome : (findTotals db sid subj).isSome <;>
    simp [handleAddSubject, upsertTotal, hs2, hq, hsome]

theorem add_subject_upserts_witness :
    (handleAddSubject dbFive "s" "PE" (JSNumber.finite 12)).1 = Except.ok () ∧
    (handleAddSubject dbFive "s" "PE" (JSNumber.finite 12)).2.logs = dbFive.logs ∧
    ((findTotals dbFive "s" "PE").isSome = true →
      (handleAddSubject dbFive "s" "PE" (JSNumber.finite 12)).2.totals =
        dbFive.totals.map fun t =>
          if keyMatch "s" "PE" t then { t with total := ⌊(12 : ℚ)⌋ } else t) ∧
    ((findTotals dbFive "s" "PE").isSome = false →
      (handleAddSubject dbFive "s" "PE" (JSNumber.finite 12)).2.totals =
        dbFive.totals ++
          [{ studentId := "s", subject := "PE", count := 0, total := ⌊(12 : ℚ)⌋ }]) :=
  add_subject_upserts dbFive "s" "PE" 12 (by decide) (by norm_num)

/-- C6: for every valid total value n (a non-negative integer, including
    values strictly below the current count), saveEditTotal succeeds,
    overwrites only the total column of the matching row, and leaves every
    count and all log rows unchanged. -/
theorem set_total_overwrites_total_only (db : DB) (sid subj : String) (n : ℕ) :
    (saveEditTotal db sid subj (JSNumber.finite n)).1 = Except.ok () ∧
    (saveEditTotal db sid subj (JSNumber.finite n)).2.logs = db.logs ∧
    (saveEditTotal db sid subj (JSNumber.finite n)).2.totals =
      (db.totals.map fun t =>
        if keyMatch sid subj t then { t with total := (n : Int) } else t) ∧
    ((saveEditTotal db sid subj (JSNumber.finite n)).2.totals.map
        fun t => t.count) = db.totals.map fun t => t.count := by
  have hq : ¬((n : ℚ) < 0) := not_lt.mpr (Nat.cast_nonneg n)
  have hfloor : ⌊(n : ℚ)⌋ = (n : Int) := Int.floor_natCast n
  have h2 : (saveEditTotal db sid subj (JSNumber.finite n)).2 =
      { db with totals := db.totals.map fun t =>
          if keyMatch sid subj t then { t with total := (n : Int) } else t } := by
    simp [saveEditTotal, hq, hfloor]
  refine ⟨by simp [saveEditTotal, hq], by rw [h2], by rw [h2], ?_⟩
  rw [h2]
  dsimp only
  rw [List.map_map]
  apply List.map_congr_left
  intro t ht
  by_cases hk : keyMatch sid subj t = true <;> simp [hk]

/-- C7 is false of saveEditTotal: the validation accepts every finite value
    that is at least 0, integer or not; the finite non-integer 3.7 is
    accepted (not rejected with InvalidValue) and is stored as its floor 3
    rather than exactly as given. -/
theorem set_total_accepts_noninteger :
    (saveEditTotal dbFive "s" "CN" (JSNumber.finite (37 / 10))).1 =
      Except.ok () ∧
    (saveEditTotal dbFive "s" "CN" (JSNumber.finite (37 / 10))).2.totals =
      [{ studentId := "s", subject := "CN", count := 5, total := 3 }] := by
  have h1 : ¬((37 / 10 : ℚ) < 0) := by norm_num
  have h2 : ⌊(37 / 10 : ℚ)⌋ = 3 := by
    rw [Int.floor_eq_iff]
    norm_num
  simp [saveEditTotal, h1, h2, dbFive, keyMatch]

/-- The inputs saveEditTotal accepts: a finite value at least 0. -/
def AcceptedTotalInput (v : JSNumber) : Prop :=
  ∃ q : ℚ, v = JSNumber.finite q ∧ 0 ≤ q

/-- C7 amended: saveEditTotal fails with InvalidValue, leaving the state
    unchanged, exactly when the input is not finite or is negative; every
    accepted input is stored as its floor. -/
theorem set_total_validation (db : DB) (sid subj : String) (v : JSNumber) :
    ((saveEditTotal db sid subj v).1 = Except.error EditError.invalidValue ↔
      ¬AcceptedTotalInput v) ∧
    (¬AcceptedTotalInput v → (saveEditTotal db sid subj v).2 = db) ∧
    (∀ q : ℚ, v = JSNumber.finite q → 0 ≤ q →
      (saveEditTotal db sid subj v).2.totals =
        db.totals.map fun t =>
          if keyMatch sid subj t then { t with total := ⌊q⌋ } else t) := by
  cases v with
  | finite q =>
    by_cases hq : q < 0
    · refine ⟨?_, ?_, ?_⟩
      · simp only [saveEditTotal, if_pos hq]
        refine iff_of_true trivial ?_
        rintro ⟨p, hp, hp0⟩
        cases hp
        exact absurd hp0 (not_le.mpr hq)
      · intro _
        simp [saveEditTotal, hq]
      · intro p hp hp0
        cases hp
        exact absurd hp0 (not_le.mpr hq)
    · have hq0 : 0 ≤ q := not_lt.mp hq
      refine ⟨?_, ?_, ?_⟩
      · simp only [saveEditTotal, if_neg hq]
        refine iff_of_false (by simp) ?_
        intro hacc
        exact hacc ⟨q, rfl, hq0⟩
      · intro hacc
        exact absurd ⟨q, rfl, hq0⟩ hacc
      · intro p hp hp0
        cases hp
        simp [saveEditTotal, hq]
  | nan =>
    refine ⟨iff_of_true rfl ?_, fun _ => rfl, fun p hp => by cases hp⟩
    rintro ⟨p, hp, _⟩
    cases hp
  | posInf =>
    refine ⟨iff_of_true rfl ?_, fun _ => rfl, fun p hp => by cases hp⟩
    rintro ⟨p, hp, _⟩
    cases hp
  | negInf =>
    refine ⟨iff_of_true rfl ?_, fun _ => rfl, fun p hp => by cases hp⟩
    rintro ⟨p, hp, _⟩
    cases hp

theorem set_total_validation_witness :
    ((saveEditTotal dbFive "s" "CN" JSNumber.nan).1 =
      Except.error EditError.invalidValue ↔ ¬AcceptedTotalInput JSNumber.nan) ∧
    (¬AcceptedTotalInput JSNumber.nan →
      (saveEditTotal dbFive "s" "CN" JSNumber.nan).2 = dbFive) ∧
    (∀ q : ℚ, JSNumber.nan = JSNumber.finite q → 0 ≤ q →
      (saveEditTotal dbFive "s" "CN" JSNumber.nan).2.totals =
        dbFive.totals.map fun t =>
          if keyMatch "s" "CN" t then { t with total := ⌊q⌋ } else t) :=
  set_total_validation dbFive "s" "CN" JSNumber.nan

/-- C8: a successful deleteAttendance removes the log row and decrements the
    matching count by 1, floored at 0: when every stored count is
    non-negative, the resulting counts stay non-negative, and in particular a
    count that is already 0 stays 0 because the new value is
    max (count - 1) 0. -/
theorem delete_decrements_floored (db : DB) (sid : String) (logId : Nat)
    (l : LogRow)
    (hfind : db.logs.find? (fun x => x.id == logId && x.studentId == sid) = some l)
    (hpos : ∀ t ∈ db.totals, 0 ≤ t.count) :
    (delete_log_and_decrement db sid logId).1 = Except.ok () ∧
    (delete_log_and_decrement db sid logId).2.logs =
      (db.logs.filter fun x => !(x.id == logId)) ∧
    (delete_log_and_decrement db sid logId).2.totals =
      (db.totals.map fun t =>
        if keyMatch l.studentId l.subject t then
          { t with count := max (t.count - 1) 0 }
        else t) ∧
    ∀ t2 ∈ (delete_log_and_decrement db sid logId).2.totals, 0 ≤ t2.count := by
  simp only [delete_log_and_decrement, hfind]
  refine ⟨trivial, trivial, trivial, ?_⟩
  intro t2 ht2
  simp only [List.mem_map] at ht2
  obtain ⟨t, htmem, rfl⟩ := ht2
  by_cases hk : keyMatch l.studentId l.subject t = true
  · rw [if_pos hk]
    exact le_max_right _ _
  · rw [if_neg hk]
    exact hpos t htmem

theorem delete_decrements_floored_witness :
    (delete_log_and_decrement dbZeroCount "s" 0).1 = Except.ok () ∧
    (delete_log_and_decrement dbZeroCount "s" 0).2.logs =
      (dbZeroCount.logs.filter fun x => !(x.id == 0)) ∧
    (delete_log_and_decrement dbZeroCount "s" 0).2.totals =
      (dbZeroCount.totals.map fun t =>
        if keyMatch "s" "CN" t then { t with count := max (t.count - 1) 0 }
        else t) ∧
    ∀ t2 ∈ (delete_log_and_decrement dbZeroCount "s" 0).2.totals,
      0 ≤ t2.count :=
  delete_decrements_floored dbZeroCount "s" 0
    { id := 0, studentId := "s", subject := "CN", note := none }
    (by decide) (by decide)

/-- C9: the display projections of the source agree with the projection in
    the words of the spec: capped is min(count, total) for a capped subject
    and count otherwise, and the displayed percentage is the rounding of
    100 * capped / total for a capped subject and absent otherwise (the
    Dashboard renders its pct element only inside a total > 0 guard, the
    Profile computes null directly). -/
theorem display_projection_matches_spec (count total : Int) :
    capped count total = specCapped count total ∧
    dashboardShownPct count total = specPercent count total ∧
    profilePct count total = specPercent count total := by
  refine ⟨rfl, ?_, ?_⟩
  · by_cases h : 0 < total
    · have hcs : capped count total = specCapped count total := rfl
      have harg : (specCapped count total : ℚ) / (total : ℚ) * 100 =
          100 * (specCapped count total : ℚ) / (total : ℚ) := by
        ring
      simp only [dashboardShownPct, dashboardPct, specPercent, if_pos h, hcs, harg]
    · simp [dashboardShownPct, specPercent, h]
  · by_cases h : 0 < total
    · have harg : ((min count total : Int) : ℚ) / (total : ℚ) * 100 =
          100 * ((min count total : Int) : ℚ) / (total : ℚ) := by
        ring
      simp only [profilePct, specPercent, specCapped, if_pos h, harg]
    · simp [profilePct, specPercent, h]

/-- C10: the optimistic local patch the Dashboard RPC variant applies after
    a successful increment_attendance_total call replaces the matching row
    count by min(count + 1, total); for an uncapped subject (total = 0) this
    sets the optimistic count to 0 whatever the previous non-negative count
    was. -/
theorem optimistic_patch_caps_count (rows : List TotalsRow) (subj : String)
    (row : TotalsRow) (hmem : row ∈ rows) (hs : (row.subject == subj) = true)
    (hc : 0 ≤ row.count) :
    { row with count := min (row.count + 1) row.total } ∈
      optimisticPatch rows subj ∧
    (row.total = 0 → min (row.count + 1) row.total = 0) := by
  constructor
  · refine List.mem_map.mpr ⟨row, hmem, ?_⟩
    simp only [hs, if_true]
  · intro h0
    rw [h0]
    omega

/-- An uncapped row with a positive count, for the C10 witness. -/
def rowUncapped : TotalsRow :=
  { studentId := "s", subject := "CN", count := 7, total := 0 }

theorem optimistic_patch_caps_count_witness :
    { rowUncapped with count := min (rowUncapped.count + 1) rowUncapped.total } ∈
      optimisticPatch [rowUncapped] "CN" ∧
    (rowUncapped.total = 0 → min (rowUncapped.count + 1) rowUncapped.total = 0) :=
  optimistic_patch_caps_count [rowUncapped] "CN" rowUncapped
    (List.mem_singleton.mpr rfl) (by decide) (by decide)

end BunkStop
